import Mathlib

/-!
Shallow embedding of the circular countdown timer component
(source: src/unnamed/part_000, a React component named CircularTimer).

Numbers: JS numbers carrying integer values (timestamps in milliseconds,
seconds of remaining time) are modelled as integers; the geometric layout
uses real numbers.  Strings returned by the color function are kept as the
literal strings of the source.
-/

namespace Prologue

/-- The CirclePosition record of the source (interface CirclePosition). -/
structure CirclePosition where
  x : ℝ
  y : ℝ
  ring : ℕ
  sequenceIndex : ℕ
  anglePosition : ℕ
  totalInRing : ℕ

/-- Geometry constant: CIRCLE_SIZE = 8. -/
def CIRCLE_SIZE : ℝ := 8

/-- Geometry constant: RADIUS = 96. -/
def RADIUS : ℝ := 96

/-- Geometry constant: PADDING = CIRCLE_SIZE * 2. -/
noncomputable def PADDING : ℝ := CIRCLE_SIZE * 2

/-- Geometry constant: SIZE = (RADIUS + PADDING) * 2. -/
noncomputable def SIZE : ℝ := (RADIUS + PADDING) * 2

/-- Geometry constant: CENTER = SIZE / 2. -/
noncomputable def CENTER : ℝ := SIZE / 2

/-- Geometry constant: NUM_RINGS = 5. -/
def NUM_RINGS : ℕ := 5

/-- SPACING = RADIUS / NUM_RINGS in the source; the ring count is kept as a
parameter N because the spec discusses other ring counts (claim C9). -/
noncomputable def SPACING (N : ℕ) : ℝ := RADIUS / N

/-- ringRadius = ring * SPACING (line 45 of the component). -/
noncomputable def ringRadius (N ring : ℕ) : ℝ := ring * SPACING N

/-- circumference = 2 * Math.PI * ringRadius (line 46). -/
noncomputable def circumference (N ring : ℕ) : ℝ := 2 * Real.pi * ringRadius N ring

/-- numCircles = Math.floor(circumference / (CIRCLE_SIZE * 2)) (line 47). -/
noncomputable def numCircles (N ring : ℕ) : ℕ :=
  ⌊circumference N ring / (CIRCLE_SIZE * 2)⌋₊

/-- ringAngleStep = (2 * Math.PI) / numCircles (line 48). -/
noncomputable def ringAngleStep (N ring : ℕ) : ℝ := 2 * Real.pi / numCircles N ring

/-- One dot of a ring: the body of the inner loop of generateCirclePositions
(lines 52-62), with startIdx the value of the running sequence counter when
the ring begins. -/
noncomputable def ringDot (N ring startIdx i : ℕ) : CirclePosition :=
  { x := CENTER + ringRadius N ring * Real.cos (i * ringAngleStep N ring)
    y := CENTER + ringRadius N ring * Real.sin (i * ringAngleStep N ring)
    ring := ring
    sequenceIndex := startIdx + i
    anglePosition := i
    totalInRing := numCircles N ring }

/-- All dots of one ring (the inner loop of generateCirclePositions). -/
noncomputable def ringDots (N ring startIdx : ℕ) : List CirclePosition :=
  (List.range (numCircles N ring)).map (ringDot N ring startIdx)

/-- The final center dot (lines 67-74). -/
noncomputable def centerDot (seqIdx : ℕ) : CirclePosition :=
  { x := CENTER
    y := CENTER
    ring := 0
    sequenceIndex := seqIdx
    anglePosition := 0
    totalInRing := 1 }

/-- The ring loop of generateCirclePositions: rings are generated from the
counter value down to 1 (for ring = NUM_RINGS; ring >= 1; ring--), the
sequence counter accumulating, and the center dot is appended last. -/
noncomputable def buildRings (N : ℕ) : ℕ → ℕ → List CirclePosition
  | 0, seqIdx => [centerDot seqIdx]
  | r + 1, seqIdx =>
      ringDots N (r + 1) seqIdx ++ buildRings N r (seqIdx + numCircles N (r + 1))

/-- generateCirclePositions (lines 39-77): five rings outer to inner, then
the center dot. -/
noncomputable def generateCirclePositions : List CirclePosition :=
  buildRings NUM_RINGS NUM_RINGS 0

/-- The mutable state of the component: the four useState cells (timeLeft,
isRunning, hasStarted, circlePositions), the startTimeRef ref, and whether an
animation frame callback is currently scheduled (animationFrameRef holding a
live handle). -/
structure TimerState where
  timeLeft : ℤ
  isRunning : Bool
  hasStarted : Bool
  circlePositions : List CirclePosition
  startTime : Option ℤ
  pending : Bool

/-- The initial state: useState(60), useState(false), useState(false),
useState([]), both refs null. -/
def initialState : TimerState :=
  { timeLeft := 60
    isRunning := false
    hasStarted := false
    circlePositions := []
    startTime := none
    pending := false }

/-- updateTimer (lines 88-104) as a state transformer taking the animation
frame timestamp.  The JS guard (!startTimeRef.current) is truthy both for
null and for the number 0, so a stored timestamp 0 is also replaced.  After
the update, a next frame is pending exactly when the callback rescheduled
itself (newTimeLeft > 0 and isRunning, line 98), which also agrees with the
effect of lines 106-108 rerunning after the state change. -/
def updateTimer (timestamp : ℤ) (s : TimerState) : TimerState :=
  let start : ℤ :=
    match s.startTime with
    | none => timestamp
    | some v => if v = 0 then timestamp else v
  let elapsedTime : ℤ := (timestamp - start).fdiv 1000
  let newTimeLeft : ℤ := max (60 - elapsedTime) 0
  let s1 := { s with timeLeft := newTimeLeft, startTime := some start }
  if 0 < newTimeLeft ∧ s.isRunning = true then
    { s1 with pending := true }
  else if newTimeLeft = 0 then
    { s1 with isRunning := false, startTime := none, pending := false }
  else
    { s1 with pending := false }

/-- toggleTimer (lines 142-151): mark hasStarted, reset a completed run,
flip isRunning.  The pending flag afterwards reflects the timer effect
(lines 106-115) rerunning on the changed dependencies: a frame is scheduled
exactly when the new isRunning is true and timeLeft is positive. -/
def toggleTimer (s : TimerState) : TimerState :=
  let s1 := { s with hasStarted := true }
  let s2 :=
    if s.isRunning = false ∧ s.timeLeft = 0 then
      { s1 with timeLeft := 60, startTime := none }
    else s1
  let s3 := { s2 with isRunning := !s.isRunning }
  { s3 with pending := s3.isRunning && decide (0 < s3.timeLeft) }

/-- reset (lines 132-140): cancel any pending frame, clear startTimeRef, and
restore the initial timer values. -/
def reset (s : TimerState) : TimerState :=
  { s with pending := false
           startTime := none
           timeLeft := 60
           isRunning := false
           hasStarted := false }

/-- The string "rgb(255, 255, 255)" returned for an active (light) dot. -/
def activeColor : String := "rgb(255, 255, 255)"

/-- The string "#1e1e1e" returned for an inactive (dark) dot. -/
def inactiveColor : String := "#1e1e1e"

/-- activeCircleCount = Math.ceil(percentage * totalCircles) with
percentage = (currentTime - 1) / 59 (lines 126-127), computed over exact
rationals. -/
def activeCircleCount (totalCircles : ℕ) (currentTime : ℤ) : ℤ :=
  ⌈((currentTime : ℚ) - 1) / 59 * (totalCircles : ℚ)⌉

/-- getCircleColor (lines 117-130).  totalCircles is circlePositions.length
minus 1 in the component (line 84); it is passed as a parameter exactly as
the closure captures it. -/
def getCircleColor (hasStarted : Bool) (totalCircles : ℕ)
    (circle : CirclePosition) (currentTime : ℤ) : String :=
  if !hasStarted then activeColor
  else if circle.ring = 0 then
    (if currentTime = 0 then inactiveColor else activeColor)
  else if currentTime ≤ 1 then inactiveColor
  else if (circle.sequenceIndex : ℤ) >
      (totalCircles : ℤ) - activeCircleCount totalCircles currentTime then
    inactiveColor
  else activeColor

/-- A dot record with given ring and sequence index and arbitrary geometry,
used to state claims that quantify over dots; getCircleColor reads only the
ring and sequenceIndex fields. -/
def mkTestDot (ring seq : ℕ) : CirclePosition :=
  { x := 0, y := 0, ring := ring, sequenceIndex := seq,
    anglePosition := 0, totalInRing := 1 }

/-- The number of non-center dots that getCircleColor marks active, among
sequence indices 0 .. totalCircles - 1 (the indices of the non-center dots
of a layout with totalCircles of them). -/
def activeDotCount (totalCircles : ℕ) (t : ℤ) : ℕ :=
  ((Finset.range totalCircles).filter
    (fun s => getCircleColor true totalCircles (mkTestDot 1 s) t = activeColor)).card

/-- The state invariant of claim C8: timeLeft stays in the interval 0..60 and
the timer is never running once timeLeft is 0. -/
def TimerInv (s : TimerState) : Prop :=
  0 ≤ s.timeLeft ∧ s.timeLeft ≤ 60 ∧ (s.timeLeft = 0 → s.isRunning = false)

/-- Claim C1: the pause and resume scenario of the spec, executed on the code.
Start the timer (toggle), run the first frame at 1000 ms, reach timeLeft = 50
at 11000 ms, pause (toggle), wait five seconds of wall-clock time, resume
(toggle), and run the first frame after resume at 16000 ms.  The claim says
timeLeft still reads 50 after resume; the code keeps the original reference
start instant across the pause (toggleTimer clears startTimeRef only when
resuming a completed run), so the frame after resume computes fifteen elapsed
seconds and timeLeft drops to 45. -/
theorem pause_resume_drift :
    (toggleTimer (updateTimer 11000 (updateTimer 1000
      (toggleTimer initialState)))).timeLeft = 50 ∧
    (toggleTimer (updateTimer 11000 (updateTimer 1000
      (toggleTimer initialState)))).startTime = some 1000 ∧
    (updateTimer 16000 (toggleTimer (toggleTimer (updateTimer 11000
      (updateTimer 1000 (toggleTimer initialState)))))).timeLeft = 45 := by
  decide

/-- Claim C6: toggling with timeLeft = 0 and isRunning = false resets
timeLeft to 60, starts the timer, and clears the reference start instant. -/
theorem toggle_after_completion (s : TimerState)
    (h0 : s.timeLeft = 0) (hr : s.isRunning = false) :
    (toggleTimer s).timeLeft = 60 ∧ (toggleTimer s).isRunning = true ∧
    (toggleTimer s).startTime = none := by
  simp [toggleTimer, h0, hr]

/-- Witness for claim C6 at a concrete completed state. -/
theorem toggle_after_completion_witness :
    (toggleTimer { initialState with
        timeLeft := 0, hasStarted := true, startTime := some 4321 }).timeLeft = 60 ∧
    (toggleTimer { initialState with
        timeLeft := 0, hasStarted := true, startTime := some 4321 }).isRunning = true ∧
    (toggleTimer { initialState with
        timeLeft := 0, hasStarted := true, startTime := some 4321 }).startTime = none :=
  toggle_after_completion _ rfl rfl

/-- Claim C7: from every state, reset yields timeLeft = 60, isRunning =
false, hasStarted = false, clears the reference start instant, cancels any
pending scheduled frame, and is idempotent. -/
theorem reset_spec (s : TimerState) :
    (reset s).timeLeft = 60 ∧ (reset s).isRunning = false ∧
    (reset s).hasStarted = false ∧ (reset s).startTime = none ∧
    (reset s).pending = false ∧ reset (reset s) = reset s :=
  ⟨rfl, rfl, rfl, rfl, rfl, rfl⟩

/-- Claim C8: every operation preserves the invariant.  For an animation
frame the timestamp is assumed at least the stored reference instant, which
is how monotone timestamps reach updateTimer; with that, a frame arbitrarily
late still clamps timeLeft into 0..60 and stops the timer at 0. -/
theorem operations_preserve_inv (s : TimerState) (h : TimerInv s) :
    TimerInv (toggleTimer s) ∧ TimerInv (reset s) ∧
    ∀ timestamp : ℤ, (∀ v, s.startTime = some v → v ≤ timestamp) →
      TimerInv (updateTimer timestamp s) := by
  obtain ⟨h0, h60, hstop⟩ := h
  refine ⟨?_, ?_, ?_⟩
  · by_cases hc : s.isRunning = false ∧ s.timeLeft = 0
    · simp only [TimerInv, toggleTimer, hc, if_pos]
      refine ⟨by norm_num, by norm_num, by norm_num⟩
    · simp only [TimerInv, toggleTimer, if_neg hc]
      refine ⟨h0, h60, fun ht => ?_⟩
      have hT : s.isRunning = true := by
        cases hb : s.isRunning
        · exact absurd ⟨hb, ht⟩ hc
        · rfl
      simp [hT]
  · refine ⟨?_, ?_, ?_⟩ <;> simp [TimerInv, reset]
  · intro timestamp hts
    unfold updateTimer
    dsimp only
    generalize hst : (match s.startTime with
       | none => timestamp
       | some v => if v = 0 then timestamp else v) = start
    have hse : start ≤ timestamp := by
      rw [← hst]
      rcases hv : s.startTime with _ | v
      · simp
      · have hvt := hts v hv
        by_cases hz : v = 0 <;> simp [hz, hvt]
    generalize he : (timestamp - start).fdiv 1000 = e
    have he0 : 0 ≤ e := he ▸ Int.fdiv_nonneg (by omega) (by norm_num)
    unfold TimerInv
    split
    · rename_i hcond
      obtain ⟨hpos, hrun⟩ := hcond
      dsimp only
      exact ⟨le_max_right _ _, by omega, fun hzero => by omega⟩
    · split
      · rename_i hzero
        dsimp only
        exact ⟨by omega, by omega, fun _ => rfl⟩
      · rename_i hcond hzero
        dsimp only
        exact ⟨le_max_right _ _, by omega, fun hz => absurd hz hzero⟩

/-- Witness for claim C8 at a concrete running state and a later frame. -/
theorem operations_preserve_inv_witness :
    TimerInv (toggleTimer { initialState with
      timeLeft := 50, isRunning := true, hasStarted := true,
      startTime := some 1000, pending := true }) ∧
    TimerInv (reset { initialState with
      timeLeft := 50, isRunning := true, hasStarted := true,
      startTime := some 1000, pending := true }) ∧
    TimerInv (updateTimer 123456 { initialState with
      timeLeft := 50, isRunning := true, hasStarted := true,
      startTime := some 1000, pending := true }) := by
  have h := operations_preserve_inv { initialState with
      timeLeft := 50, isRunning := true, hasStarted := true,
      startTime := some 1000, pending := true }
    (by refine ⟨by norm_num, by norm_num, by intro hx; cases hx⟩)
  exact ⟨h.1, h.2.1, h.2.2 123456 (by intro v hv; cases hv; omega)⟩

/-- Claim C10: an animation frame never changes hasStarted or the generated
dot layout; updateTimer touches only timeLeft, isRunning, the reference
start instant, and the scheduling handle. -/
theorem updateTimer_frame (timestamp : ℤ) (s : TimerState) :
    (updateTimer timestamp s).hasStarted = s.hasStarted ∧
    (updateTimer timestamp s).circlePositions = s.circlePositions := by
  unfold updateTimer
  dsimp only
  split
  · exact ⟨rfl, rfl⟩
  · split
    · exact ⟨rfl, rfl⟩
    · exact ⟨rfl, rfl⟩

/-- Dot count of the outermost ring of the actual layout: floor of 12 pi. -/
lemma numCircles_5_5 : numCircles 5 5 = 37 := by
  unfold numCircles circumference ringRadius SPACING RADIUS CIRCLE_SIZE
  rw [Nat.floor_eq_iff (by positivity)]
  constructor
  · push_cast
    nlinarith [Real.pi_gt_d2]
  · push_cast
    nlinarith [Real.pi_gt_d2, Real.pi_lt_d2]

/-- Dot count of ring 4 of the actual layout. -/
lemma numCircles_5_4 : numCircles 5 4 = 30 := by
  unfold numCircles circumference ringRadius SPACING RADIUS CIRCLE_SIZE
  rw [Nat.floor_eq_iff (by positivity)]
  constructor
  · push_cast
    nlinarith [Real.pi_gt_d2]
  · push_cast
    nlinarith [Real.pi_gt_d2, Real.pi_lt_d2]

/-- Dot count of ring 3 of the actual layout. -/
lemma numCircles_5_3 : numCircles 5 3 = 22 := by
  unfold numCircles circumference ringRadius SPACING RADIUS CIRCLE_SIZE
  rw [Nat.floor_eq_iff (by positivity)]
  constructor
  · push_cast
    nlinarith [Real.pi_gt_d2]
  · push_cast
    nlinarith [Real.pi_gt_d2, Real.pi_lt_d2]

/-- Dot count of ring 2 of the actual layout. -/
lemma numCircles_5_2 : numCircles 5 2 = 15 := by
  unfold numCircles circumference ringRadius SPACING RADIUS CIRCLE_SIZE
  rw [Nat.floor_eq_iff (by positivity)]
  constructor
  · push_cast
    nlinarith [Real.pi_gt_d2]
  · push_cast
    nlinarith [Real.pi_gt_d2, Real.pi_lt_d2]

/-- Dot count of ring 1 of the actual layout. -/
lemma numCircles_5_1 : numCircles 5 1 = 7 := by
  unfold numCircles circumference ringRadius SPACING RADIUS CIRCLE_SIZE
  rw [Nat.floor_eq_iff (by positivity)]
  constructor
  · push_cast
    nlinarith [Real.pi_gt_d2]
  · push_cast
    nlinarith [Real.pi_gt_d2, Real.pi_lt_d2]

/-- The generated layout unfolded into its five ring blocks and center dot. -/
lemma gen_eq : generateCirclePositions =
    ringDots 5 5 0 ++ (ringDots 5 4 (0 + numCircles 5 5) ++
    (ringDots 5 3 (0 + numCircles 5 5 + numCircles 5 4) ++
    (ringDots 5 2 (0 + numCircles 5 5 + numCircles 5 4 + numCircles 5 3) ++
    (ringDots 5 1 (0 + numCircles 5 5 + numCircles 5 4 + numCircles 5 3 + numCircles 5 2) ++
    [centerDot (0 + numCircles 5 5 + numCircles 5 4 + numCircles 5 3 + numCircles 5 2 +
      numCircles 5 1)])))) := rfl

lemma ringDots_length (N r start : ℕ) : (ringDots N r start).length = numCircles N r := by
  simp [ringDots]

/-- The actual layout has 112 dots, so totalCircles = 111 in the component. -/
lemma gen_length : generateCirclePositions.length = 112 := by
  rw [gen_eq]
  simp [ringDots_length, numCircles_5_5, numCircles_5_4, numCircles_5_3,
    numCircles_5_2, numCircles_5_1]

lemma ringDots_getD (N r start i : ℕ) (h : i < numCircles N r) (d : CirclePosition) :
    (ringDots N r start).getD i d = ringDot N r start i := by
  unfold ringDots
  rw [List.getD_eq_getD_get?, List.get?_map, List.get?_range h]
  rfl

/-- Dot number 1 of the generated layout is the second dot of the outer ring. -/
lemma gen_getD_one (d : CirclePosition) :
    generateCirclePositions.getD 1 d = ringDot 5 5 0 1 := by
  rw [gen_eq, List.getD_append _ _ _ _ (by rw [ringDots_length, numCircles_5_5]; omega)]
  exact ringDots_getD 5 5 0 1 (by rw [numCircles_5_5]; omega) d

/-- Dot number 55 of the generated layout is dot 18 of ring 4. -/
lemma gen_getD_55 (d : CirclePosition) :
    generateCirclePositions.getD 55 d = ringDot 5 4 37 18 := by
  rw [gen_eq, List.getD_append_right _ _ _ _ (by rw [ringDots_length, numCircles_5_5]; omega),
    ringDots_length, numCircles_5_5]
  rw [List.getD_append _ _ _ _ (by rw [ringDots_length, numCircles_5_4]; omega)]
  show (ringDots 5 4 37).getD 18 d = ringDot 5 4 37 18
  exact ringDots_getD 5 4 37 18 (by rw [numCircles_5_4]; omega) d


/-- Dot number 60 of the generated layout is dot 23 of ring 4. -/
lemma gen_getD_60 (d : CirclePosition) :
    generateCirclePositions.getD 60 d = ringDot 5 4 37 23 := by
  rw [gen_eq, List.getD_append_right _ _ _ _ (by rw [ringDots_length, numCircles_5_5]; omega),
    ringDots_length, numCircles_5_5]
  rw [List.getD_append _ _ _ _ (by rw [ringDots_length, numCircles_5_4]; omega)]
  show (ringDots 5 4 37).getD 23 d = ringDot 5 4 37 23
  exact ringDots_getD 5 4 37 23 (by rw [numCircles_5_4]; omega) d

lemma color_strings_ne : inactiveColor ≠ activeColor := by decide

/-- For a started timer, a non-center dot, and currentTime at least 2, the
color is decided by comparing the sequence index against
totalCircles - activeCircleCount (line 129 of the component). -/
lemma getCircleColor_of_ring_ne (T : ℕ) (c : CirclePosition) (t : ℤ)
    (hr : c.ring ≠ 0) (ht : 2 ≤ t) :
    getCircleColor true T c t =
      if (c.sequenceIndex : ℤ) > (T : ℤ) - activeCircleCount T t
      then inactiveColor else activeColor := by
  unfold getCircleColor
  rw [if_neg (by simp), if_neg hr, if_neg (by omega)]

lemma activeCircleCount_mono (T : ℕ) {t u : ℤ} (h : t ≤ u) :
    activeCircleCount T t ≤ activeCircleCount T u := by
  unfold activeCircleCount
  apply Int.ceil_mono
  have hq : (t : ℚ) ≤ (u : ℚ) := by exact_mod_cast h
  have hT : (0:ℚ) ≤ (T : ℚ) := by positivity
  have : ((t : ℚ) - 1) / 59 ≤ ((u : ℚ) - 1) / 59 := by linarith
  nlinarith

lemma activeCircleCount_pos (T : ℕ) (hT : 1 ≤ T) {t : ℤ} (ht : 2 ≤ t) :
    1 ≤ activeCircleCount T t := by
  unfold activeCircleCount
  have h1 : (0:ℚ) < ((t : ℚ) - 1) / 59 * (T : ℚ) := by
    have h2 : (1:ℚ) ≤ (t : ℚ) - 1 := by
      have : (2:ℚ) ≤ (t : ℚ) := by exact_mod_cast ht
      linarith
    have h3 : (1:ℚ) ≤ (T : ℚ) := by exact_mod_cast hT
    positivity
  have := Int.ceil_pos.mpr h1
  omega

lemma activeCircleCount_le (T : ℕ) {t : ℤ} (ht : t ≤ 59) :
    activeCircleCount T t ≤ (T : ℤ) := by
  unfold activeCircleCount
  rw [show ((T : ℤ)) = ((T : ℕ) : ℤ) from rfl]
  rw [Int.ceil_le]
  push_cast
  have hq : (t : ℚ) ≤ 59 := by exact_mod_cast ht
  have hT : (0:ℚ) ≤ (T : ℚ) := by positivity
  nlinarith

/-- The exact rational ceiling rewritten as integer division, for
evaluation. -/
lemma activeCircleCount_eq (T : ℕ) (t : ℤ) :
    activeCircleCount T t = -(-((t - 1) * (T : ℤ)) / 59) := by
  unfold activeCircleCount
  have h1 : ((t : ℚ) - 1) / 59 * (T : ℚ) =
      -(((-((t - 1) * (T : ℤ)) : ℤ) : ℚ) / ((59 : ℕ) : ℚ)) := by
    push_cast
    ring
  rw [h1, Int.ceil_neg, Rat.floor_intCast_div_natCast]
  norm_num

lemma activeCircleCount_sixty (T : ℕ) : activeCircleCount T 60 = (T : ℤ) := by
  unfold activeCircleCount
  norm_num

/-- Claim C2 (amended): for a fixed non-center dot with hasStarted true, on
the range 2 <= timeLeft <= 59 the direction of monotonicity is the reverse
of the claimed one: once the dot is inactive (dark) at some timeLeft t, it
is inactive at every LARGER timeLeft up to 59 - equivalently, as the
countdown decreases the code only turns dots from dark to light on this
range, never back.  (The claim as stated, inactivity persisting toward
smaller timeLeft, is refuted by the counterexample theorem.) -/
theorem inactive_persists (T : ℕ) (c : CirclePosition) (t u : ℤ)
    (hr : c.ring ≠ 0) (ht : 2 ≤ t) (htu : t ≤ u) (hu : u ≤ 59)
    (hdark : getCircleColor true T c t = inactiveColor) :
    getCircleColor true T c u = inactiveColor := by
  rw [getCircleColor_of_ring_ne T c t hr ht] at hdark
  rw [getCircleColor_of_ring_ne T c u hr (by omega)]
  have hmono := activeCircleCount_mono T htu
  by_cases hc : (c.sequenceIndex : ℤ) > (T : ℤ) - activeCircleCount T t
  · rw [if_pos (by omega)]
  · rw [if_neg hc] at hdark
    exact absurd hdark.symm color_strings_ne

/-- Witness for claim C2 (amended) at a concrete dot: index 108 is dark at
timeLeft = 3 and therefore dark at timeLeft = 40. -/
theorem inactive_persists_witness :
    getCircleColor true 111 (mkTestDot 1 108) 40 = inactiveColor :=
  inactive_persists 111 (mkTestDot 1 108) 3 40 (by decide) (by decide)
    (by decide) (by decide)
    (by rw [getCircleColor_of_ring_ne _ _ _ (by decide) (by decide),
          activeCircleCount_eq]
        decide)

/-- Counterexample to claim C2 as stated: in the actual layout
(totalCircles = 111), the non-center dot with sequence index 55 (ring 4) is
inactive at timeLeft = 31 yet active at the smaller timeLeft = 30, so a dot
inactive at some t does not stay inactive for smaller t. -/
theorem flicker_cex :
    (generateCirclePositions.getD 55 (mkTestDot 1 0)).sequenceIndex = 55 ∧
    (generateCirclePositions.getD 55 (mkTestDot 1 0)).ring = 4 ∧
    generateCirclePositions.length - 1 = 111 ∧
    getCircleColor true (generateCirclePositions.length - 1)
      (generateCirclePositions.getD 55 (mkTestDot 1 0)) 31 = inactiveColor ∧
    getCircleColor true (generateCirclePositions.length - 1)
      (generateCirclePositions.getD 55 (mkTestDot 1 0)) 30 = activeColor := by
  rw [gen_getD_55, gen_length]
  refine ⟨rfl, rfl, rfl, ?_, ?_⟩
  · rw [getCircleColor_of_ring_ne _ _ _ (by decide) (by decide), activeCircleCount_eq]
    decide
  · rw [getCircleColor_of_ring_ne _ _ _ (by decide) (by decide), activeCircleCount_eq]
    decide


lemma mkTestDot_seq (r s : ℕ) : (mkTestDot r s).sequenceIndex = s := rfl

lemma mkTestDot_ring (r s : ℕ) : (mkTestDot r s).ring = r := rfl

lemma active_iff_aux (T : ℕ) (c : CirclePosition) (t : ℤ)
    (hr : c.ring ≠ 0) (ht2 : 2 ≤ t) :
    (getCircleColor true T c t = activeColor ↔
      (c.sequenceIndex : ℤ) ≤ (T : ℤ) - activeCircleCount T t) := by
  rw [getCircleColor_of_ring_ne T c t hr ht2]
  by_cases hc : (c.sequenceIndex : ℤ) > (T : ℤ) - activeCircleCount T t
  · rw [if_pos hc]
    constructor
    · intro h
      exact absurd h color_strings_ne
    · intro h
      exact absurd h (by omega)
  · rw [if_neg hc]
    constructor
    · intro _
      omega
    · intro _
      rfl

lemma activeDotCount_eq (T : ℕ) (t : ℤ) (hT : 1 ≤ T) (ht2 : 2 ≤ t) (ht59 : t ≤ 59) :
    (activeDotCount T t : ℤ) = (T : ℤ) + 1 - activeCircleCount T t := by
  have hA1 := activeCircleCount_pos T hT ht2
  have hAT := activeCircleCount_le T ht59
  have hfilter : ∀ s : ℕ, (getCircleColor true T (mkTestDot 1 s) t = activeColor) ↔
      s ≤ ((T : ℤ) - activeCircleCount T t).toNat := by
    intro s
    rw [active_iff_aux T (mkTestDot 1 s) t
      (by rw [mkTestDot_ring]; exact one_ne_zero) ht2, mkTestDot_seq]
    omega
  have hset : (Finset.range T).filter
      (fun s => getCircleColor true T (mkTestDot 1 s) t = activeColor)
      = Finset.range (((T : ℤ) - activeCircleCount T t).toNat + 1) := by
    ext x
    simp only [Finset.mem_filter, Finset.mem_range, hfilter x]
    omega
  unfold activeDotCount
  rw [hset, Finset.card_range]
  omega

/-- Claim C3 (amended): for 2 <= t <= 59 and totalCircles = T >= 1, the
number of active non-center dots is T + 1 - ceil(((t-1)/59)*T), not the
claimed ceil(((t-1)/59)*T), and the active dots are those with the LOWEST
sequence indices (a dot is active iff its index is at most
T - activeCircleCount), not the highest. -/
theorem active_count_formula (T : ℕ) (t : ℤ)
    (hT : 1 ≤ T) (ht2 : 2 ≤ t) (ht59 : t ≤ 59) :
    (activeDotCount T t : ℤ) = (T : ℤ) + 1 - activeCircleCount T t ∧
    (∀ s : ℕ, s < T → (getCircleColor true T (mkTestDot 1 s) t = activeColor ↔
      (s : ℤ) ≤ (T : ℤ) - activeCircleCount T t)) := by
  refine ⟨activeDotCount_eq T t hT ht2 ht59, fun s _ => ?_⟩
  rw [active_iff_aux T (mkTestDot 1 s) t
    (by rw [mkTestDot_ring]; exact one_ne_zero) ht2, mkTestDot_seq]

/-- Witness for claim C3 (amended) at T = 100, t = 31: the active count is
101 - 51 = 50. -/
theorem active_count_formula_witness :
    (activeDotCount 100 31 : ℤ) = (100 : ℤ) + 1 - activeCircleCount 100 31 :=
  (active_count_formula 100 31 (by norm_num) (by norm_num) (by norm_num)).1

/-- Counterexample to claim C3 as stated: at T = 100, t = 31 the claimed
count is ceil((30/59)*100) = 51, but the code marks exactly 50 non-center
dots active, and the highest-index dot 99 is inactive rather than active. -/
theorem active_count_cex :
    activeCircleCount 100 31 = 51 ∧ activeDotCount 100 31 = 50 ∧
    getCircleColor true 100 (mkTestDot 1 99) 31 = inactiveColor := by
  have h1 : activeCircleCount 100 31 = 51 := by
    rw [activeCircleCount_eq]
    decide
  refine ⟨h1, ?_, ?_⟩
  · have h2 := activeDotCount_eq 100 31 (by norm_num) (by norm_num) (by norm_num)
    rw [h1] at h2
    omega
  · rw [getCircleColor_of_ring_ne _ _ _ (by decide) (by decide), activeCircleCount_eq]
    decide

/-- Claim C4 (amended): the stated characterisation is exactly the code -
for 2 <= t <= 59 a non-center dot is active iff its sequence index is at
most totalDots - activeCount - but the claimed equivalent reading is
reversed: as time decreases dots are LIT in order of ascending sequence
index (outer rings first), not extinguished in descending order. -/
theorem active_iff_le_threshold (T : ℕ) (c : CirclePosition) (t : ℤ)
    (hr : c.ring ≠ 0) (ht2 : 2 ≤ t) (ht59 : t ≤ 59) :
    (getCircleColor true T c t = activeColor ↔
      (c.sequenceIndex : ℤ) ≤ (T : ℤ) - activeCircleCount T t) :=
  active_iff_aux T c t hr ht2

/-- Witness for claim C4 (amended): dot 10 on ring 2 with T = 111 at
t = 31 satisfies 10 <= 111 - 57 and is active. -/
theorem active_iff_le_threshold_witness :
    getCircleColor true 111 (mkTestDot 2 10) 31 = activeColor :=
  (active_iff_le_threshold 111 (mkTestDot 2 10) 31 (by decide) (by decide)
    (by decide)).mpr
    (by rw [activeCircleCount_eq]; decide)

/-- Counterexample to the extinguish-order reading of claim C4: in the
actual layout (totalCircles = 111) the dot with sequence index 60 is
inactive at timeLeft = 29 and becomes ACTIVE at the smaller timeLeft = 28,
so dots are lit, not extinguished, as time decreases. -/
theorem extinguish_order_cex :
    (generateCirclePositions.getD 60 (mkTestDot 1 0)).sequenceIndex = 60 ∧
    getCircleColor true (generateCirclePositions.length - 1)
      (generateCirclePositions.getD 60 (mkTestDot 1 0)) 29 = inactiveColor ∧
    getCircleColor true (generateCirclePositions.length - 1)
      (generateCirclePositions.getD 60 (mkTestDot 1 0)) 28 = activeColor := by
  rw [gen_getD_60, gen_length]
  refine ⟨rfl, ?_, ?_⟩
  · rw [getCircleColor_of_ring_ne _ _ _ (by decide) (by decide), activeCircleCount_eq]
    decide
  · rw [getCircleColor_of_ring_ne _ _ _ (by decide) (by decide), activeCircleCount_eq]
    decide

/-- Counterexample to claim C5 as stated: immediately after start, at
timeLeft = 60, not every dot is active - in the actual layout the outer-ring
dot with sequence index 1 is already inactive (only index 0 and the center
are active at 60). -/
theorem boundary_cex :
    (generateCirclePositions.getD 1 (mkTestDot 1 0)).ring = 5 ∧
    (generateCirclePositions.getD 1 (mkTestDot 1 0)).sequenceIndex = 1 ∧
    getCircleColor true (generateCirclePositions.length - 1)
      (generateCirclePositions.getD 1 (mkTestDot 1 0)) 60 = inactiveColor := by
  rw [gen_getD_one, gen_length]
  refine ⟨rfl, rfl, ?_⟩
  rw [getCircleColor_of_ring_ne _ _ _ (by decide) (by decide), activeCircleCount_eq]
  decide

/-- Claim C5 (amended): with hasStarted true, at timeLeft = 0 the center
dot and every non-center dot are inactive, as claimed; but at timeLeft = 60
only the center dot and the single non-center dot with sequence index 0 are
active, not all dots. -/
theorem boundary_colors (T : ℕ) (c : CirclePosition) :
    (c.ring = 0 → getCircleColor true T c 60 = activeColor ∧
      getCircleColor true T c 0 = inactiveColor) ∧
    (c.ring ≠ 0 → (getCircleColor true T c 60 = activeColor ↔ c.sequenceIndex = 0) ∧
      getCircleColor true T c 0 = inactiveColor) := by
  constructor
  · intro h0
    constructor
    · unfold getCircleColor
      rw [if_neg (by simp), if_pos h0, if_neg (by norm_num)]
    · unfold getCircleColor
      rw [if_neg (by simp), if_pos h0, if_pos rfl]
  · intro hne
    constructor
    · rw [getCircleColor_of_ring_ne T c 60 hne (by norm_num), activeCircleCount_sixty]
      constructor
      · intro h
        by_contra hs
        rw [if_pos (by omega)] at h
        exact absurd h color_strings_ne
      · intro h
        rw [if_neg (by omega)]
    · unfold getCircleColor
      rw [if_neg (by simp), if_neg hne, if_pos (by norm_num)]

/-- Witness for claim C5 (amended) at concrete dots: the center dot and
non-center dots with indices 0 and 7, with T = 111. -/
theorem boundary_colors_witness :
    getCircleColor true 111 (mkTestDot 0 111) 60 = activeColor ∧
    getCircleColor true 111 (mkTestDot 0 111) 0 = inactiveColor ∧
    getCircleColor true 111 (mkTestDot 5 0) 60 = activeColor ∧
    getCircleColor true 111 (mkTestDot 5 7) 0 = inactiveColor :=
  ⟨((boundary_colors 111 (mkTestDot 0 111)).1 rfl).1,
   ((boundary_colors 111 (mkTestDot 0 111)).1 rfl).2,
   ((boundary_colors 111 (mkTestDot 5 0)).2 (by decide)).1.mpr rfl,
   ((boundary_colors 111 (mkTestDot 5 7)).2 (by decide)).2⟩


/-- On the interval from a to pi - a the sine is at least sin a, for
0 <= a <= pi/2. -/
lemma sin_ge_of_between (a x : ℝ) (ha0 : 0 ≤ a) (ha : a ≤ Real.pi / 2)
    (h1 : a ≤ x) (h2 : x ≤ Real.pi - a) : Real.sin a ≤ Real.sin x := by
  have hπ := Real.pi_pos
  rcases le_or_lt x (Real.pi / 2) with hx | hx
  · exact Real.strictMonoOn_sin.monotoneOn
      (Set.mem_Icc.mpr ⟨by linarith, ha⟩)
      (Set.mem_Icc.mpr ⟨by linarith, hx⟩) h1
  · rw [← Real.sin_pi_sub x]
    exact Real.strictMonoOn_sin.monotoneOn
      (Set.mem_Icc.mpr ⟨by linarith, ha⟩)
      (Set.mem_Icc.mpr ⟨by linarith, by linarith⟩) (by linarith)

/-- Jordan-type bound instantiated at pi/k: sin(pi/k) is at least 2/k for
k >= 2. -/
lemma two_div_le_sin_pi_div (k : ℕ) (hk : 2 ≤ k) :
    2 / (k : ℝ) ≤ Real.sin (Real.pi / k) := by
  have hπ := Real.pi_pos
  have hk0 : (0:ℝ) < k := by
    have : (2:ℝ) ≤ (k:ℝ) := by exact_mod_cast hk
    linarith
  have hk2 : (2:ℝ) ≤ (k:ℝ) := by exact_mod_cast hk
  have h1 : 0 ≤ Real.pi / k := by positivity
  have h2 : Real.pi / k ≤ Real.pi / 2 := by
    rw [div_le_div_iff hk0 (by norm_num)]
    nlinarith
  have h3 := Real.mul_le_sin h1 h2
  have h4 : 2 / Real.pi * (Real.pi / k) = 2 / (k:ℝ) := by
    field_simp
  linarith [h4 ▸ h3]

/-- Squared distance between two points of a circle of radius R. -/
lemma chord_sq (R a b : ℝ) :
    (R * Real.cos a - R * Real.cos b) ^ 2 + (R * Real.sin a - R * Real.sin b) ^ 2 =
      2 * R ^ 2 * (1 - Real.cos (a - b)) := by
  rw [Real.cos_sub]
  have h1 := Real.sin_sq_add_cos_sq a
  have h2 := Real.sin_sq_add_cos_sq b
  nlinarith [h1, h2]

/-- Half-angle identity used to turn the chord formula into a sine. -/
lemma one_sub_cos_eq (θ : ℝ) : 1 - Real.cos θ = 2 * Real.sin (θ / 2) ^ 2 := by
  have h := Real.cos_two_mul (θ / 2)
  rw [show 2 * (θ / 2) = θ by ring] at h
  have h2 := Real.sin_sq_add_cos_sq (θ / 2)
  nlinarith [h, h2]

/-- Rings with positive index have positive radius. -/
lemma ringRadius_pos (N r : ℕ) (hN : 1 ≤ N) (hr1 : 1 ≤ r) :
    0 < ringRadius N r := by
  unfold ringRadius SPACING RADIUS
  have hN0 : (0:ℝ) < (N:ℝ) := by exact_mod_cast hN
  have hr0 : (0:ℝ) < (r:ℝ) := by exact_mod_cast hr1
  positivity

/-- The floor-based dot count of a ring is at most pi times the ring radius
over 8, i.e. circumference divided by twice the dot diameter. -/
lemma numCircles_le (N r : ℕ) :
    (numCircles N r : ℝ) ≤ Real.pi * ringRadius N r / 8 := by
  unfold numCircles circumference CIRCLE_SIZE
  have h0 : (0:ℝ) ≤ 2 * Real.pi * ringRadius N r / (8 * 2) := by
    have := Real.pi_pos
    unfold ringRadius SPACING RADIUS
    positivity
  calc ((⌊2 * Real.pi * ringRadius N r / (8 * 2)⌋₊ : ℕ) : ℝ)
      ≤ 2 * Real.pi * ringRadius N r / (8 * 2) := Nat.floor_le h0
    _ = Real.pi * ringRadius N r / 8 := by ring

/-- Core distance bound for two dots of one ring, in the case j < i. -/
lemma ring_dots_dist_core (N r startIdx i j : ℕ)
    (hN : 1 ≤ N) (hr1 : 1 ≤ r)
    (hi : i < numCircles N r) (hij : j < i) :
    CIRCLE_SIZE ≤ Real.sqrt
      (((ringDot N r startIdx i).x - (ringDot N r startIdx j).x) ^ 2 +
       ((ringDot N r startIdx i).y - (ringDot N r startIdx j).y) ^ 2) := by
  have hπ := Real.pi_pos
  have hπ4 : Real.pi < 4 := by linarith [Real.pi_lt_315]
  set k := numCircles N r with hkdef
  have hk2 : 2 ≤ k := by omega
  have hk0 : (0:ℝ) < (k:ℝ) := by
    have : (2:ℝ) ≤ (k:ℝ) := by exact_mod_cast hk2
    linarith
  set R := ringRadius N r with hRdef
  have hR : 0 < R := ringRadius_pos N r hN hr1
  have hk_le : (k:ℝ) ≤ Real.pi * R / 8 := numCircles_le N r
  set m := i - j with hmdef
  have hm1 : 1 ≤ m := by omega
  have hmk : m ≤ k - 1 := by omega
  have hmcast : ((m:ℕ) : ℝ) = (i:ℝ) - (j:ℝ) := by
    rw [hmdef]
    push_cast [Nat.cast_sub hij.le]
    ring
  set x := (m : ℝ) * Real.pi / k with hxdef
  have hx1 : Real.pi / k ≤ x := by
    have hm1R : (1:ℝ) ≤ (m:ℝ) := by exact_mod_cast hm1
    rw [hxdef, div_le_div_iff hk0 hk0]
    have key : 0 ≤ ((m:ℝ) - 1) * (Real.pi * (k:ℝ)) :=
      mul_nonneg (by linarith) (by positivity)
    nlinarith [key]
  have hx2 : x ≤ Real.pi - Real.pi / k := by
    have hmk2 : (m:ℝ) ≤ (k:ℝ) - 1 := by
      have h1 : ((m:ℕ):ℝ) ≤ ((k - 1 : ℕ) : ℝ) := by exact_mod_cast hmk
      have h2 : ((k - 1 : ℕ) : ℝ) = (k:ℝ) - 1 := by
        push_cast [Nat.cast_sub (by omega : 1 ≤ k)]
        ring
      linarith [h2 ▸ h1]
    have e : Real.pi - Real.pi / k = ((k:ℝ) - 1) * Real.pi / k := by
      field_simp
      ring
    rw [hxdef, e, div_le_div_iff hk0 hk0]
    have key : 0 ≤ (((k:ℝ) - 1) - (m:ℝ)) * (Real.pi * (k:ℝ)) :=
      mul_nonneg (by linarith) (by positivity)
    nlinarith [key]
  have hpik2 : Real.pi / k ≤ Real.pi / 2 := by
    rw [div_le_div_iff hk0 (by norm_num)]
    have : (2:ℝ) ≤ (k:ℝ) := by exact_mod_cast hk2
    nlinarith
  have hpik0 : 0 ≤ Real.pi / k := by positivity
  have hsin1 : Real.sin (Real.pi / k) ≤ Real.sin x :=
    sin_ge_of_between (Real.pi / k) x hpik0 hpik2 hx1 hx2
  have hsin2 : 2 / (k:ℝ) ≤ Real.sin (Real.pi / k) := two_div_le_sin_pi_div k hk2
  have hsinx : 2 / (k:ℝ) ≤ Real.sin x := le_trans hsin2 hsin1
  have hsinx0 : 0 ≤ Real.sin x := le_trans (by positivity) hsinx
  have hD : ((ringDot N r startIdx i).x - (ringDot N r startIdx j).x) ^ 2 +
      ((ringDot N r startIdx i).y - (ringDot N r startIdx j).y) ^ 2 =
      (2 * R * Real.sin x) ^ 2 := by
    show (CENTER + R * Real.cos ((i:ℝ) * ringAngleStep N r) -
        (CENTER + R * Real.cos ((j:ℝ) * ringAngleStep N r))) ^ 2 +
      (CENTER + R * Real.sin ((i:ℝ) * ringAngleStep N r) -
        (CENTER + R * Real.sin ((j:ℝ) * ringAngleStep N r))) ^ 2 = _
    have hstep : ringAngleStep N r = 2 * Real.pi / k := rfl
    have e1 : (CENTER + R * Real.cos ((i:ℝ) * ringAngleStep N r) -
        (CENTER + R * Real.cos ((j:ℝ) * ringAngleStep N r))) ^ 2 +
      (CENTER + R * Real.sin ((i:ℝ) * ringAngleStep N r) -
        (CENTER + R * Real.sin ((j:ℝ) * ringAngleStep N r))) ^ 2 =
      (R * Real.cos ((i:ℝ) * ringAngleStep N r) -
        R * Real.cos ((j:ℝ) * ringAngleStep N r)) ^ 2 +
      (R * Real.sin ((i:ℝ) * ringAngleStep N r) -
        R * Real.sin ((j:ℝ) * ringAngleStep N r)) ^ 2 := by ring
    rw [e1, chord_sq]
    have e2 : (i:ℝ) * ringAngleStep N r - (j:ℝ) * ringAngleStep N r =
        (m:ℝ) * (2 * Real.pi / k) := by
      rw [hstep, hmcast]
      ring
    rw [e2, one_sub_cos_eq]
    have e3 : (m:ℝ) * (2 * Real.pi / k) / 2 = x := by
      rw [hxdef]
      ring
    rw [e3]
    ring
  rw [hD, Real.sqrt_sq (by positivity)]
  have h8k : 8 * (k:ℝ) ≤ Real.pi * R := by linarith
  have h2k : 2 * (k:ℝ) < R := by nlinarith
  have hmul : 2 * R * (2 / (k:ℝ)) ≤ 2 * R * Real.sin x :=
    mul_le_mul_of_nonneg_left hsinx (by positivity)
  have hval : (8:ℝ) ≤ 2 * R * (2 / (k:ℝ)) := by
    rw [show 2 * R * (2 / (k:ℝ)) = 4 * R / k by ring, le_div_iff hk0]
    linarith
  unfold CIRCLE_SIZE
  linarith

/-- Claim C9: for every ring count N >= 1 and ring index r in 1..N, any two
distinct dots that generateCirclePositions places on that ring (at radius
r * (RADIUS / N), floor(circumference / (2 * CIRCLE_SIZE)) of them at equal
angular steps) are at center-to-center distance at least the dot diameter
CIRCLE_SIZE, so dots on the same ring never overlap. -/
theorem ring_dots_no_overlap (N r startIdx i j : ℕ)
    (hN : 1 ≤ N) (hr1 : 1 ≤ r) (hrN : r ≤ N)
    (hi : i < numCircles N r) (hj : j < numCircles N r) (hij : i ≠ j) :
    CIRCLE_SIZE ≤ Real.sqrt
      (((ringDot N r startIdx i).x - (ringDot N r startIdx j).x) ^ 2 +
       ((ringDot N r startIdx i).y - (ringDot N r startIdx j).y) ^ 2) := by
  rcases lt_or_gt_of_ne hij with h | h
  · rw [show ((ringDot N r startIdx i).x - (ringDot N r startIdx j).x) ^ 2 =
        ((ringDot N r startIdx j).x - (ringDot N r startIdx i).x) ^ 2 by ring,
      show ((ringDot N r startIdx i).y - (ringDot N r startIdx j).y) ^ 2 =
        ((ringDot N r startIdx j).y - (ringDot N r startIdx i).y) ^ 2 by ring]
    exact ring_dots_dist_core N r startIdx j i hN hr1 hj h
  · exact ring_dots_dist_core N r startIdx i j hN hr1 hi h

/-- Witness for claim C9: the first two dots of the outer ring of the
actual layout (N = 5, r = 5) are at least 8 apart. -/
theorem ring_dots_no_overlap_witness :
    CIRCLE_SIZE ≤ Real.sqrt
      (((ringDot 5 5 0 0).x - (ringDot 5 5 0 1).x) ^ 2 +
       ((ringDot 5 5 0 0).y - (ringDot 5 5 0 1).y) ^ 2) :=
  ring_dots_no_overlap 5 5 0 0 1 (by norm_num) (by norm_num) (by norm_num)
    (by rw [numCircles_5_5]; omega) (by rw [numCircles_5_5]; omega) (by omega)


end Prologue
